import Mathlib

/-!
Shallow embedding of `src/query/src/servers/http/v1/query/execute_state.rs`
(the HTTP query execution controller of databend).

Machine instants are modelled as natural numbers (`Instant` / `Duration`
become `Nat`, with truncated subtraction standing in for `Instant - Instant`).
The shared mutable collaborators that stop/get_progress reach through `Arc`
handles — the context's scan-progress counters, the session's
`force_kill_query` side effect and the interpreter's `finish` hook — are
modelled as fields of a `World` record that the operations read and update
explicitly.
-/

/-- Model of `common_exception::ErrorCode`: an error code plus a message. -/
structure ErrorCode where
  code : Nat
  message : String
deriving DecidableEq, Repr

/-- The value `ErrorCode::AbortedQuery("query aborted")`, the distinguished error the
pump task installs when the abort-channel receive wins the race. -/
def abortedQueryError : ErrorCode := ⟨1043, "query aborted"⟩

/-- Model of `common_base::ProgressValues`: the scan-progress counters. -/
structure ProgressValues where
  read_rows : Nat
  read_bytes : Nat
deriving DecidableEq, Repr

/-- Model of `common_datablocks::DataBlock`, opaque to the controller. -/
structure DataBlock where
  id : Nat
deriving DecidableEq, Repr

instance : DecidableEq (Except ErrorCode Unit) := fun a b =>
  match a, b with
  | .ok (), .ok () => isTrue rfl
  | .ok (), .error _ => isFalse (by simp)
  | .error _, .ok () => isFalse (by simp)
  | .error e, .error e' =>
      if h : e = e' then isTrue (by rw [h]) else isFalse (by simp [h])

/-- The `ExecuteStateName` enumeration: the externally visible status. -/
inductive ExecuteStateName
  | Running
  | Failed
  | Succeeded
deriving DecidableEq, Repr

/-- The `ExecuteStopped` record, the frozen terminal state: an optional progress
snapshot, the outcome (`reason : Result<()>`), and the stop instant. -/
structure ExecuteStopped where
  progress : Option ProgressValues
  reason : Except ErrorCode Unit
  stop_time : Nat
deriving DecidableEq

/-- The `ExecuteState` tagged union {Running, Stopped}. The `Running` variant's
payload (`ExecuteRunning`: session, context, interpreter handles) consists of
`Arc` references into shared state; those live in `World` below, so the
variant itself carries no data here. -/
inductive ExecuteState
  | Running
  | Stopped (v : ExecuteStopped)
deriving DecidableEq

/-- Model of `ExecuteState::extract`: derive the visible status and optional error. -/
def ExecuteState.extract : ExecuteState → ExecuteStateName × Option ErrorCode
  | .Running => (ExecuteStateName.Running, none)
  | .Stopped v =>
      match v.reason with
      | .ok _ => (ExecuteStateName.Succeeded, none)
      | .error e => (ExecuteStateName.Failed, some e)

/-- The `Executor` record: start instant plus the current execution state. -/
structure Executor where
  start_time : Nat
  state : ExecuteState
deriving DecidableEq

/-- The shared mutable environment the controller's operations touch through
`Arc` handles: the context's live scan-progress counters
(`context.get_scan_progress_value()`), the session's kill counter (number of
`force_kill_query` invocations), the interpreter's finish-hook call counter
and the result that hook would return, and the `RwLock<Executor>` cell. -/
structure World where
  scan_progress : ProgressValues
  kill_count : Nat
  finish_count : Nat
  finish_result : Except ErrorCode Unit
  executor : Executor
deriving DecidableEq

/-- Model of `Executor::get_progress`: live counters while Running, the frozen
snapshot once Stopped. -/
def Executor.get_progress (w : World) : Option ProgressValues :=
  match w.executor.state with
  | .Running => some w.scan_progress
  | .Stopped f => f.progress

/-- Model of `Executor::elapsed`: `now - start_time` while Running,
`stop_time - start_time` once Stopped. -/
def Executor.elapsed (w : World) (now : Nat) : Nat :=
  match w.executor.state with
  | .Running => now - w.executor.start_time
  | .Stopped f => f.stop_time - w.executor.start_time

/-- Model of `Executor::stop(this, reason, kill)`: under the write lock, if the state
is Running, snapshot the progress counters, optionally `force_kill_query`,
invoke `interpreter.finish()` discarding its result (logged only), and write
the Stopped variant; if already Stopped, do nothing at all. -/
def Executor.stop (w : World) (reason : Except ErrorCode Unit) (kill : Bool)
    (now : Nat) : World :=
  match w.executor.state with
  | .Running =>
      let progress := some w.scan_progress
      let w1 := if kill then { w with kill_count := w.kill_count + 1 } else w
      -- Write Finish to query log table; the hook's result is discarded.
      let w2 := { w1 with finish_count := w1.finish_count + 1 }
      { w2 with executor := { w2.executor with
          state := .Stopped ⟨progress, reason, now⟩ } }
  | .Stopped _ => w

/-!
The pump task spawned by `ExecuteState::try_create` (lines 200–224 of the
source). Each loop iteration awaits the next item of the abortable block
stream (`Option<Result<DataBlock>>`). On `Some(Ok(block))` it races sending
the block into the bounded channel against receiving on the abort channel;
abort winning calls `stop(Err(AbortedQuery), kill = true)` and exits, the
send winning delivers the block and loops. On `Some(Err(e))` it calls
`stop(Err(e), kill = false)` and exits; on `None` it calls
`stop(Ok(()), kill = false)` and exits.

Two models: `pumpLoop`, a big-step run over the whole stream where the
schedule `abortWins i` says whether the abort receive wins the race at the
i-th successful block; and `pumpStep`, a small-step machine used for the
temporal claim about when a queued abort signal is actually observed.
-/

/-- Big-step pump task: consume the stream under abort schedule `abortWins`,
starting at race index `i`; return the final world and the list of blocks
delivered to the outbound channel, in order. -/
def pumpLoop (abortWins : Nat → Bool) :
    List (Except ErrorCode DataBlock) → Nat → World → Nat →
    World × List DataBlock
  | [], _, w, now => (Executor.stop w (.ok ()) false now, [])
  | .ok b :: rest, i, w, now =>
      if abortWins i then
        (Executor.stop w (.error abortedQueryError) true now, [])
      else
        let p := pumpLoop abortWins rest (i + 1) w now
        (p.1, b :: p.2)
  | .error e :: _, _, w, now => (Executor.stop w (.error e) false now, [])

/-- Whether the abort branch fires somewhere during `pumpLoop` on this
stream under this schedule, starting at race index `i`. -/
def abortFired (abortWins : Nat → Bool) :
    List (Except ErrorCode DataBlock) → Nat → Bool
  | [], _ => false
  | .ok _ :: rest, i =>
      if abortWins i then true else abortFired abortWins rest (i + 1)
  | .error _ :: _, _ => false

/-- Control position of the pump task between suspension points: parked on
`data_stream.next().await` (`awaitNext`), inside the `select!` racing a
produced block's delivery against the abort receive (`racing`), or exited. -/
inductive PumpPos
  | awaitNext (stream : List (Except ErrorCode DataBlock))
  | racing (b : DataBlock) (rest : List (Except ErrorCode DataBlock))
  | exited

/-- Configuration of the small-step pump machine: control position, the
shared world, the blocks delivered so far, and whether an abort signal is
currently queued on the abort channel. -/
structure PumpState where
  pos : PumpPos
  world : World
  sent : List DataBlock
  abortQueued : Bool

/-- Scheduler choice for a `racing` step: which arm of the `select!` is
ready first. Irrelevant at every other position. -/
inductive PumpChoice
  | deliver
  | abortWon

/-- One step of the pump task. The abort channel is only polled inside the
`select!` (position `racing`); `awaitNext` consumes the next stream item
without looking at the abort channel, exactly as the source loop does.
`abortWon` can only fire when a signal is actually queued. -/
def pumpStep (s : PumpState) (c : PumpChoice) (now : Nat) : PumpState :=
  match s.pos with
  | .awaitNext [] =>
      { s with pos := .exited,
               world := Executor.stop s.world (.ok ()) false now }
  | .awaitNext (.ok b :: rest) => { s with pos := .racing b rest }
  | .awaitNext (.error e :: _) =>
      { s with pos := .exited,
               world := Executor.stop s.world (.error e) false now }
  | .racing b rest =>
      match c with
      | .deliver => { s with pos := .awaitNext rest, sent := s.sent ++ [b] }
      | .abortWon =>
          if s.abortQueued then
            { s with pos := .exited,
                     world := Executor.stop s.world
                                (.error abortedQueryError) true now,
                     abortQueued := false }
          else
            { s with pos := .awaitNext rest, sent := s.sent ++ [b] }
  | .exited => s

/-!
`ExecuteState::try_create` (lines 149–227). The collaborators it calls —
session manager, context, user manager, plan parser, interpreter factory,
spawner — are external to this file's subject; they are modelled as a
record of the outcomes each fallible call would return, and `try_create`
sequences them with early return exactly as the `?` operator does in the
source. The output records, beside the returned `Result`, whether an
`Executor` value was constructed and whether the pump task was spawned.
-/

/-- The `HttpSessionConf` record: optional database and user overrides. -/
structure HttpSessionConf where
  database : Option String
  user : Option String

/-- The `HttpQueryRequest` record: the SQL text plus session configuration. -/
structure HttpQueryRequest where
  session : HttpSessionConf
  sql : String

/-- Model of `UserInfo`, opaque to the controller. -/
structure UserInfo where
  name : String

/-- A parsed plan: the controller only takes its schema (modelled as an
opaque identifier for `DataSchemaRef`). -/
structure PlanNode where
  schema : Nat

/-- Outcomes of the external collaborator calls made by `try_create`, in
source order. `start_result` is what `interpreter.start()` returns (its
error is logged and discarded); `execute` yields the raw block stream. -/
structure Env where
  create_session : Except ErrorCode Unit
  create_context : Except ErrorCode Unit
  set_current_database : String → Except ErrorCode Unit
  create_context2 : Except ErrorCode Unit
  get_user : String → Except ErrorCode UserInfo
  parse : String → Except ErrorCode PlanNode
  interpreter_factory : Except ErrorCode Unit
  start_result : Except ErrorCode Unit
  execute : Except ErrorCode (List (Except ErrorCode DataBlock))
  try_create_abortable : Except ErrorCode Unit
  try_spawn : Except ErrorCode Unit

/-- Result of `try_create`: the `Result<(ExecutorRef, DataSchemaRef)>`,
whether an `Executor` value was constructed, and whether the pump task was
spawned. -/
structure TryCreateOut where
  result : Except ErrorCode (Executor × Nat)
  executor_constructed : Bool
  spawned : Bool

/-- The database-binding step of `try_create`:
`if let Some(db) = &request.session.database { context.set_current_database(db)? }`. -/
def bind_database (req : HttpQueryRequest) (env : Env) : Except ErrorCode Unit :=
  match req.session.database with
  | some db => env.set_current_database db
  | none => .ok ()

/-- Model of `ExecuteState::try_create`: wire the collaborators together, construct
the Running executor, spawn the pump task, and return the executor handle
and schema; any `?`-propagated failure returns that error at once. -/
def ExecuteState.try_create (req : HttpQueryRequest) (env : Env) (now : Nat) :
    TryCreateOut :=
  match env.create_session with
  | .error e => ⟨.error e, false, false⟩
  | .ok _ =>
  match env.create_context with
  | .error e => ⟨.error e, false, false⟩
  | .ok _ =>
  match bind_database req env with
  | .error e => ⟨.error e, false, false⟩
  | .ok _ =>
  -- context.attach_query_str(sql): infallible.
  let user_name := req.session.user.getD "root"
  match env.create_context2 with
  | .error e => ⟨.error e, false, false⟩
  | .ok _ =>
  match env.get_user user_name with
  | .error e => ⟨.error e, false, false⟩
  | .ok _user_info =>
  -- session.set_current_user(user_info): infallible.
  match env.parse req.sql with
  | .error e => ⟨.error e, false, false⟩
  | .ok plan =>
  match env.interpreter_factory with
  | .error e => ⟨.error e, false, false⟩
  | .ok _ =>
  -- Write Start to query log table; the hook's result is discarded.
  let _start := env.start_result
  match env.execute with
  | .error e => ⟨.error e, false, false⟩
  | .ok _data_stream =>
  match env.try_create_abortable with
  | .error e => ⟨.error e, false, false⟩
  | .ok _ =>
  -- Abort channel created, handle attached to the context; executor built.
  let executor : Executor := ⟨now, .Running⟩
  match env.try_spawn with
  | .error e => ⟨.error e, true, false⟩
  | .ok _ => ⟨.ok (executor, plan.schema), true, true⟩

/-! ### Helper lemmas -/

/-- Calling `stop` on an already-Stopped executor is a complete no-op. -/
theorem stop_of_stopped (w : World) (f : ExecuteStopped)
    (h : w.executor.state = ExecuteState.Stopped f)
    (r : Except ErrorCode Unit) (k : Bool) (now : Nat) :
    Executor.stop w r k now = w := by
  simp [Executor.stop, h]

/-- Normal form of `stop` on a Running executor: snapshot, optional kill,
finish hook, state write. -/
theorem stop_of_running (w : World) (h : w.executor.state = ExecuteState.Running)
    (r : Except ErrorCode Unit) (k : Bool) (now : Nat) :
    Executor.stop w r k now =
      { w with
        kill_count := w.kill_count + if k then 1 else 0,
        finish_count := w.finish_count + 1,
        executor := { w.executor with
          state := ExecuteState.Stopped ⟨some w.scan_progress, r, now⟩ } } := by
  cases k <;> simp [Executor.stop, h]

/-- Sample worlds used by witnesses: one still Running, one Stopped. -/
def wRun : World := ⟨⟨0, 0⟩, 0, 0, .ok (), ⟨0, ExecuteState.Running⟩⟩

def wStop : World :=
  ⟨⟨3, 4⟩, 0, 1, .ok (), ⟨0, ExecuteState.Stopped ⟨some ⟨1, 2⟩, .ok (), 5⟩⟩⟩

/-! ### Claims -/

/-- C1: the Running→Stopped transition happens at most once per Executor —
`stop` on an already-Stopped executor changes nothing at all (no snapshot,
no kill, no finish hook, no state write), and after a first `stop` from
Running has written its Stopped value, any second `stop` (any outcome, any
kill flag) leaves that value in place. -/
theorem stop_transition_at_most_once (w : World)
    (r1 r2 : Except ErrorCode Unit) (k1 k2 : Bool) (t1 t2 : Nat) :
    (∀ f, w.executor.state = ExecuteState.Stopped f →
        Executor.stop w r1 k1 t1 = w) ∧
    (w.executor.state = ExecuteState.Running →
        (Executor.stop w r1 k1 t1).executor.state =
          ExecuteState.Stopped ⟨some w.scan_progress, r1, t1⟩ ∧
        Executor.stop (Executor.stop w r1 k1 t1) r2 k2 t2 =
          Executor.stop w r1 k1 t1) := by
  refine ⟨fun f hf => stop_of_stopped w f hf r1 k1 t1, fun hr => ?_⟩
  have h1 := stop_of_running w hr r1 k1 t1
  refine ⟨by rw [h1], ?_⟩
  exact stop_of_stopped _ _ (by rw [h1]) r2 k2 t2

theorem stop_transition_at_most_once_witness :
    Executor.stop (Executor.stop wRun (.ok ()) false 5) (.error ⟨1, "e"⟩)
        true 9 =
      Executor.stop wRun (.ok ()) false 5 :=
  ((stop_transition_at_most_once wRun (.ok ()) (.error ⟨1, "e"⟩) false true
      5 9).2 rfl).2

/-- C2: `extract` maps Running to (Running, none), Stopped-with-success to
(Succeeded, none), Stopped-with-error to (Failed, that error); terminal
states report exactly one of Succeeded/Failed, Failed always carries an
error, and Running/Succeeded never do. -/
theorem extract_state_name (s : ExecuteState) :
    (s = ExecuteState.Running →
        s.extract = (ExecuteStateName.Running, none)) ∧
    (∀ f, s = ExecuteState.Stopped f →
        (f.reason = .ok () →
            s.extract = (ExecuteStateName.Succeeded, none)) ∧
        (∀ e, f.reason = .error e →
            s.extract = (ExecuteStateName.Failed, some e)) ∧
        (s.extract.1 = ExecuteStateName.Succeeded ∨
            s.extract.1 = ExecuteStateName.Failed) ∧
        ¬(s.extract.1 = ExecuteStateName.Succeeded ∧
            s.extract.1 = ExecuteStateName.Failed) ∧
        (s.extract.1 = ExecuteStateName.Failed ↔ (s.extract.2).isSome)) ∧
    ((s.extract.1 = ExecuteStateName.Running ∨
        s.extract.1 = ExecuteStateName.Succeeded) → s.extract.2 = none) := by
  refine ⟨?_, ?_, ?_⟩
  · rintro rfl; rfl
  · rintro f rfl
    rcases hr : f.reason with u | e <;>
      simp [ExecuteState.extract, hr]
  · rcases s with _ | f
    · intro _; rfl
    · rcases hr : f.reason with u | e <;>
        simp [ExecuteState.extract, hr]

theorem extract_state_name_witness :
    (ExecuteState.Stopped ⟨none, .error ⟨1, "boom"⟩, 7⟩).extract =
      (ExecuteStateName.Failed, some ⟨1, "boom"⟩) :=
  ((extract_state_name _).2.1 _ rfl).2.1 _ rfl

/-- C8: `get_progress` reads the context's live counters while Running and
the snapshot frozen at stop time once Stopped; once Stopped its value is
unaffected by any later change of the live counters. -/
theorem get_progress_live_or_frozen (w : World) :
    (w.executor.state = ExecuteState.Running →
        Executor.get_progress w = some w.scan_progress) ∧
    (∀ f, w.executor.state = ExecuteState.Stopped f →
        Executor.get_progress w = f.progress ∧
        ∀ p', Executor.get_progress { w with scan_progress := p' } =
          f.progress) ∧
    (w.executor.state = ExecuteState.Running →
        ∀ r k now p',
          Executor.get_progress (Executor.stop w r k now) =
            some w.scan_progress ∧
          Executor.get_progress
              { Executor.stop w r k now with scan_progress := p' } =
            some w.scan_progress) := by
  refine ⟨fun h => by simp [Executor.get_progress, h], fun f hf => ?_,
    fun h r k now p' => ?_⟩
  · exact ⟨by simp [Executor.get_progress, hf],
      fun p' => by simp [Executor.get_progress, hf]⟩
  · rw [stop_of_running w h r k now]
    exact ⟨rfl, rfl⟩

theorem get_progress_live_or_frozen_witness :
    Executor.get_progress { wStop with scan_progress := ⟨99, 99⟩ } =
      some ⟨1, 2⟩ :=
  ((get_progress_live_or_frozen wStop).2.1 _ rfl).2 ⟨99, 99⟩

/-- C9: `elapsed` is `now - start_time` while Running and the frozen
`stop_time - start_time` once Stopped, independent of the current time. -/
theorem elapsed_live_or_frozen (w : World) :
    (w.executor.state = ExecuteState.Running → ∀ now,
        Executor.elapsed w now = now - w.executor.start_time) ∧
    (∀ f, w.executor.state = ExecuteState.Stopped f → ∀ now now',
        Executor.elapsed w now = f.stop_time - w.executor.start_time ∧
        Executor.elapsed w now = Executor.elapsed w now') ∧
    (w.executor.state = ExecuteState.Running → ∀ r k t now now',
        Executor.elapsed (Executor.stop w r k t) now =
          t - w.executor.start_time ∧
        Executor.elapsed (Executor.stop w r k t) now =
          Executor.elapsed (Executor.stop w r k t) now') := by
  refine ⟨fun h now => by simp [Executor.elapsed, h],
    fun f hf now now' => ⟨by simp [Executor.elapsed, hf],
      by simp [Executor.elapsed, hf]⟩,
    fun h r k t now now' => ?_⟩
  rw [stop_of_running w h r k t]
  exact ⟨rfl, rfl⟩

theorem elapsed_live_or_frozen_witness :
    Executor.elapsed wStop 100 = 5 ∧
    Executor.elapsed wStop 100 = Executor.elapsed wStop 1000 :=
  (elapsed_live_or_frozen wStop).2.1 _ rfl 100 1000

/-- C10: every Stopped state actually produced by `stop` from Running
carries a present (Some) progress snapshot, so `get_progress` after the
transition never returns absence. -/
theorem stopped_snapshot_present (w : World) (r : Except ErrorCode Unit)
    (k : Bool) (now : Nat) (h : w.executor.state = ExecuteState.Running) :
    (Executor.stop w r k now).executor.state =
      ExecuteState.Stopped ⟨some w.scan_progress, r, now⟩ ∧
    Executor.get_progress (Executor.stop w r k now) =
      some w.scan_progress ∧
    (Executor.get_progress (Executor.stop w r k now)).isSome = true := by
  rw [stop_of_running w h r k now]
  exact ⟨rfl, rfl, rfl⟩

theorem stopped_snapshot_present_witness :
    (Executor.get_progress
        (Executor.stop wRun (.error ⟨1, "e"⟩) true 3)).isSome = true :=
  (stopped_snapshot_present wRun (.error ⟨1, "e"⟩) true 3 rfl).2.2

/-- The outcome `stop` receives when the pump loop runs to the end of the
stream with no abort: the first upstream error, or success on exhaustion. -/
def pumpOutcome : List (Except ErrorCode DataBlock) → Except ErrorCode Unit
  | [] => .ok ()
  | .ok _ :: rest => pumpOutcome rest
  | .error e :: _ => .error e

/-- With no abort ever winning, the pump loop passes a prefix of successful
blocks straight to the outbound channel and continues on the tail. -/
theorem pumpLoop_ok_front (blocks : List DataBlock)
    (tail : List (Except ErrorCode DataBlock)) (i : Nat) (w : World)
    (now : Nat) :
    pumpLoop (fun _ => false) (blocks.map Except.ok ++ tail) i w now =
      ((pumpLoop (fun _ => false) tail (i + blocks.length) w now).1,
       blocks ++ (pumpLoop (fun _ => false) tail (i + blocks.length) w now).2) := by
  induction blocks generalizing i with
  | nil => simp
  | cons b bs ih =>
      simp only [List.map_cons, List.cons_append, pumpLoop, List.length_cons,
        List.append_eq, Bool.false_eq_true, if_false]
      rw [ih (i + 1), show i + 1 + bs.length = i + (bs.length + 1) from by omega]

/-- The final world of a pump-loop run: the aborted stop if the abort branch
fires, otherwise the stop carrying the stream's own outcome. -/
theorem pumpLoop_world_eq (abortWins : Nat → Bool)
    (stream : List (Except ErrorCode DataBlock)) (i : Nat) (w : World)
    (now : Nat) :
    (pumpLoop abortWins stream i w now).1 =
      if abortFired abortWins stream i then
        Executor.stop w (.error abortedQueryError) true now
      else
        Executor.stop w (pumpOutcome stream) false now := by
  induction stream generalizing i with
  | nil => simp [pumpLoop, abortFired, pumpOutcome]
  | cons x rest ih =>
      cases x with
      | ok b =>
          cases hab : abortWins i with
          | true => simp [pumpLoop, abortFired, hab]
          | false => simp [pumpLoop, abortFired, hab, pumpOutcome, ih]
      | error e => simp [pumpLoop, abortFired, pumpOutcome]

/-- An error outcome of the pump loop is an error of the stream itself. -/
theorem pumpOutcome_error_mem (stream : List (Except ErrorCode DataBlock))
    (e : ErrorCode) (h : pumpOutcome stream = .error e) :
    Except.error e ∈ stream := by
  induction stream with
  | nil => simp [pumpOutcome] at h
  | cons x rest ih =>
      cases x with
      | ok b =>
          simp only [pumpOutcome] at h
          exact List.mem_cons_of_mem _ (ih h)
      | error e' =>
          simp only [pumpOutcome, Except.error.injEq] at h
          subst h
          exact List.mem_cons_self _ _

/-- C3: with no abort signal ever delivered, a stream of k successful blocks
followed by an error sends exactly those k blocks in order and then stops
with that error and `force_kill = false`; an exhausted stream sends all its
blocks and stops with success and `force_kill = false`. -/
theorem pump_no_abort_delivery (blocks : List DataBlock) (e : ErrorCode)
    (tail : List (Except ErrorCode DataBlock)) (w : World) (now : Nat)
    (h : w.executor.state = ExecuteState.Running) :
    (pumpLoop (fun _ => false)
        (blocks.map Except.ok ++ Except.error e :: tail) 0 w now =
       (Executor.stop w (.error e) false now, blocks) ∧
     (pumpLoop (fun _ => false)
        (blocks.map Except.ok ++ Except.error e :: tail) 0 w now).1.executor.state =
       ExecuteState.Stopped ⟨some w.scan_progress, .error e, now⟩ ∧
     (pumpLoop (fun _ => false)
        (blocks.map Except.ok ++ Except.error e :: tail) 0 w now).1.kill_count =
       w.kill_count) ∧
    (pumpLoop (fun _ => false) (blocks.map Except.ok) 0 w now =
       (Executor.stop w (.ok ()) false now, blocks) ∧
     (pumpLoop (fun _ => false) (blocks.map Except.ok) 0 w now).1.executor.state =
       ExecuteState.Stopped ⟨some w.scan_progress, .ok (), now⟩ ∧
     (pumpLoop (fun _ => false) (blocks.map Except.ok) 0 w now).1.kill_count =
       w.kill_count) := by
  have herr : pumpLoop (fun _ => false)
      (blocks.map Except.ok ++ Except.error e :: tail) 0 w now =
      (Executor.stop w (.error e) false now, blocks) := by
    rw [pumpLoop_ok_front]
    simp [pumpLoop]
  have hok : pumpLoop (fun _ => false) (blocks.map Except.ok) 0 w now =
      (Executor.stop w (.ok ()) false now, blocks) := by
    have h0 : blocks.map Except.ok =
        blocks.map Except.ok ++ ([] : List (Except ErrorCode DataBlock)) := by
      simp
    rw [h0, pumpLoop_ok_front]
    simp [pumpLoop]
  refine ⟨⟨herr, ?_, ?_⟩, hok, ?_, ?_⟩
  · simp [herr, stop_of_running w h]
  · simp [herr, stop_of_running w h]
  · simp [hok, stop_of_running w h]
  · simp [hok, stop_of_running w h]

theorem pump_no_abort_delivery_witness :
    pumpLoop (fun _ => false)
        [Except.ok ⟨1⟩, Except.ok ⟨2⟩, Except.error ⟨7, "third"⟩] 0 wRun 4 =
      (Executor.stop wRun (.error ⟨7, "third"⟩) false 4,
       [⟨1⟩, ⟨2⟩]) :=
  (pump_no_abort_delivery [⟨1⟩, ⟨2⟩] ⟨7, "third"⟩ [] wRun 4 rfl).1.1

/-- C4: the session's forced-kill path runs exactly once iff the abort
branch of the pump's race fires (which also makes the outcome the
distinguished aborted-query error); on every other path to Stopped the kill
counter is untouched, and — as long as the stream itself never yields the
distinguished error — the kill is equivalent to the final state carrying
that error. -/
theorem cancellation_kill_coupling (abortWins : Nat → Bool)
    (stream : List (Except ErrorCode DataBlock)) (w : World) (now : Nat)
    (h : w.executor.state = ExecuteState.Running) :
    (abortFired abortWins stream 0 = true →
        (pumpLoop abortWins stream 0 w now).1.kill_count = w.kill_count + 1 ∧
        (pumpLoop abortWins stream 0 w now).1.executor.state =
          ExecuteState.Stopped
            ⟨some w.scan_progress, .error abortedQueryError, now⟩) ∧
    (abortFired abortWins stream 0 = false →
        (pumpLoop abortWins stream 0 w now).1.kill_count = w.kill_count) ∧
    ((∀ e, Except.error e ∈ stream → e ≠ abortedQueryError) →
        ((pumpLoop abortWins stream 0 w now).1.kill_count = w.kill_count + 1 ↔
          ∃ p t, (pumpLoop abortWins stream 0 w now).1.executor.state =
            ExecuteState.Stopped ⟨p, .error abortedQueryError, t⟩)) := by
  refine ⟨fun hab => ?_, fun hab => ?_, fun hmem => ?_⟩
  · rw [pumpLoop_world_eq, if_pos hab, stop_of_running w h]
    exact ⟨by simp, rfl⟩
  · rw [pumpLoop_world_eq, if_neg (by simp [hab]), stop_of_running w h]
    simp
  · cases hab : abortFired abortWins stream 0 with
    | true =>
        rw [pumpLoop_world_eq, if_pos hab, stop_of_running w h]
        exact ⟨fun _ => ⟨some w.scan_progress, now, rfl⟩, fun _ => by simp⟩
    | false =>
        rw [pumpLoop_world_eq, if_neg (by simp [hab]), stop_of_running w h]
        constructor
        · intro hk
          simp at hk
        · rintro ⟨p, t, hstate⟩
          simp only [ExecuteState.Stopped.injEq, ExecuteStopped.mk.injEq]
            at hstate
          exact absurd rfl
            (hmem _ (pumpOutcome_error_mem _ _ hstate.2.1))

theorem cancellation_kill_coupling_witness :
    ((pumpLoop (fun _ => true) [Except.ok ⟨1⟩] 0 wRun 4).1.kill_count = 1 ∧
      (pumpLoop (fun _ => true) [Except.ok ⟨1⟩] 0 wRun 4).1.executor.state =
        ExecuteState.Stopped
          ⟨some ⟨0, 0⟩, .error abortedQueryError, 4⟩) ∧
    (pumpLoop (fun _ => false) [Except.ok ⟨1⟩] 0 wRun 4).1.kill_count = 0 :=
  ⟨(cancellation_kill_coupling (fun _ => true) [Except.ok ⟨1⟩] wRun 4
      rfl).1 rfl,
   (cancellation_kill_coupling (fun _ => false) [Except.ok ⟨1⟩] wRun 4
      rfl).2.1 rfl⟩

/-- Calling `stop` with `kill = false` never touches the kill counter. -/
theorem stop_kill_false_kill_count (w : World) (r : Except ErrorCode Unit)
    (now : Nat) : (Executor.stop w r false now).kill_count = w.kill_count := by
  rcases hw : w.executor.state with _ | f
  · simp [stop_of_running w hw]
  · rw [stop_of_stopped w f hw]

/-- C5: a queued abort signal is inert while the pump is parked awaiting the
next stream item — the step there neither consumes the signal nor kills and
is independent of the scheduler's choice; the session kill happens only on a
`racing` step where the abort arm wins with a signal queued, and then the
triggering block is dropped (delivered list unchanged) and the loop exits
with the aborted-error Stopped state. -/
theorem abort_observed_only_in_race (s : PumpState) (c : PumpChoice)
    (now : Nat) :
    (∀ l, s.pos = PumpPos.awaitNext l →
        (pumpStep s c now).abortQueued = s.abortQueued ∧
        (pumpStep s c now).world.kill_count = s.world.kill_count ∧
        pumpStep s c now = pumpStep s PumpChoice.deliver now ∧
        (∀ b', pumpStep { s with abortQueued := b' } c now =
          { pumpStep s c now with abortQueued := b' })) ∧
    (s.world.kill_count < (pumpStep s c now).world.kill_count →
        (∃ b rest, s.pos = PumpPos.racing b rest) ∧
        c = PumpChoice.abortWon ∧ s.abortQueued = true ∧
        (pumpStep s c now).sent = s.sent ∧
        (pumpStep s c now).pos = PumpPos.exited) ∧
    (∀ b rest, s.pos = PumpPos.racing b rest → c = PumpChoice.abortWon →
        s.abortQueued = true →
        s.world.executor.state = ExecuteState.Running →
        (pumpStep s c now).world.executor.state =
          ExecuteState.Stopped
            ⟨some s.world.scan_progress, .error abortedQueryError, now⟩ ∧
        (pumpStep s c now).sent = s.sent ∧
        (pumpStep s c now).pos = PumpPos.exited) := by
  refine ⟨?_, ?_, ?_⟩
  · intro l hl
    rcases l with _ | ⟨x | e, rest⟩ <;>
      refine ⟨?_, ?_, ?_, fun b' => ?_⟩ <;>
        simp [pumpStep, hl, stop_kill_false_kill_count]
  · intro hk
    rcases hpos : s.pos with l | ⟨b, rest⟩ | _
    · exfalso
      rcases l with _ | ⟨x | e, rest'⟩ <;>
        simp [pumpStep, hpos, stop_kill_false_kill_count] at hk
    · cases c with
      | deliver => exfalso; simp [pumpStep, hpos] at hk
      | abortWon =>
          cases haq : s.abortQueued with
          | false => exfalso; simp [pumpStep, hpos, haq] at hk
          | true =>
              refine ⟨⟨b, rest, rfl⟩, rfl, rfl, ?_, ?_⟩ <;>
                simp [pumpStep, hpos, haq]
    · exfalso; simp [pumpStep, hpos] at hk
  · intro b rest hb hc hq hw
    subst hc
    refine ⟨?_, ?_, ?_⟩
    · simp only [pumpStep, hb, hq, if_true]
      rw [stop_of_running s.world hw]
    · simp [pumpStep, hb, hq]
    · simp [pumpStep, hb, hq]

theorem abort_observed_only_in_race_witness :
    ((pumpStep ⟨PumpPos.awaitNext [Except.ok ⟨3⟩], wRun, [], true⟩
        PumpChoice.abortWon 7).abortQueued = true ∧
      (pumpStep ⟨PumpPos.awaitNext [Except.ok ⟨3⟩], wRun, [], true⟩
        PumpChoice.abortWon 7).world.kill_count = 0) ∧
    ((pumpStep ⟨PumpPos.racing ⟨5⟩ [], wRun, [], true⟩
        PumpChoice.abortWon 7).world.executor.state =
      ExecuteState.Stopped
        ⟨some ⟨0, 0⟩, .error abortedQueryError, 7⟩ ∧
     (pumpStep ⟨PumpPos.racing ⟨5⟩ [], wRun, [], true⟩
        PumpChoice.abortWon 7).sent = []) ∧
    wRun.kill_count <
      (pumpStep ⟨PumpPos.racing ⟨5⟩ [], wRun, [], true⟩
        PumpChoice.abortWon 7).world.kill_count ∧
    (pumpStep ⟨PumpPos.racing ⟨5⟩ [], wRun, [], true⟩
        PumpChoice.abortWon 7).pos = PumpPos.exited :=
  ⟨(fun t => ⟨t.1, t.2.1⟩)
      ((abort_observed_only_in_race
          ⟨PumpPos.awaitNext [Except.ok ⟨3⟩], wRun, [], true⟩
          PumpChoice.abortWon 7).1 [Except.ok ⟨3⟩] rfl),
   (fun t => ⟨t.1, t.2.1⟩)
      ((abort_observed_only_in_race
          ⟨PumpPos.racing ⟨5⟩ [], wRun, [], true⟩
          PumpChoice.abortWon 7).2.2 ⟨5⟩ [] rfl rfl rfl rfl),
   by decide,
   ((abort_observed_only_in_race
        ⟨PumpPos.racing ⟨5⟩ [], wRun, [], true⟩
        PumpChoice.abortWon 7).2.1 (by decide)).2.2.2.2⟩

/-- Sample request and collaborator environment used by witnesses. -/
def reqW : HttpQueryRequest := ⟨⟨some "db1", none⟩, "select 1"⟩

def envOk : Env :=
  { create_session := .ok ()
    create_context := .ok ()
    set_current_database := fun _ => .ok ()
    create_context2 := .ok ()
    get_user := fun n => .ok ⟨n⟩
    parse := fun _ => .ok ⟨42⟩
    interpreter_factory := .ok ()
    start_result := .ok ()
    execute := .ok []
    try_create_abortable := .ok ()
    try_spawn := .ok () }

/-- C6: every pre-execution failure — session creation, context creation
(either call), database binding, SQL parsing, interpreter construction, or
the initial execute call — makes `try_create` return that very error
synchronously, with no Executor constructed and no pump task spawned. -/
theorem try_create_pre_execution_errors (req : HttpQueryRequest) (env : Env)
    (now : Nat) (e : ErrorCode) :
    (env.create_session = .error e →
        ExecuteState.try_create req env now = ⟨.error e, false, false⟩) ∧
    (env.create_session = .ok () → env.create_context = .error e →
        ExecuteState.try_create req env now = ⟨.error e, false, false⟩) ∧
    (env.create_session = .ok () → env.create_context = .ok () →
        ∀ db, req.session.database = some db →
        env.set_current_database db = .error e →
        ExecuteState.try_create req env now = ⟨.error e, false, false⟩) ∧
    (env.create_session = .ok () → env.create_context = .ok () →
        bind_database req env = .ok () → env.create_context2 = .error e →
        ExecuteState.try_create req env now = ⟨.error e, false, false⟩) ∧
    (env.create_session = .ok () → env.create_context = .ok () →
        bind_database req env = .ok () → env.create_context2 = .ok () →
        (∃ u, env.get_user (req.session.user.getD "root") = .ok u) →
        env.parse req.sql = .error e →
        ExecuteState.try_create req env now = ⟨.error e, false, false⟩) ∧
    (env.create_session = .ok () → env.create_context = .ok () →
        bind_database req env = .ok () → env.create_context2 = .ok () →
        (∃ u, env.get_user (req.session.user.getD "root") = .ok u) →
        (∃ plan, env.parse req.sql = .ok plan) →
        env.interpreter_factory = .error e →
        ExecuteState.try_create req env now = ⟨.error e, false, false⟩) ∧
    (env.create_session = .ok () → env.create_context = .ok () →
        bind_database req env = .ok () → env.create_context2 = .ok () →
        (∃ u, env.get_user (req.session.user.getD "root") = .ok u) →
        (∃ plan, env.parse req.sql = .ok plan) →
        env.interpreter_factory = .ok () → env.execute = .error e →
        ExecuteState.try_create req env now = ⟨.error e, false, false⟩) := by
  refine ⟨?_, ?_, ?_, ?_, ?_, ?_, ?_⟩
  · intro h1
    simp [ExecuteState.try_create, h1]
  · intro h1 h2
    simp [ExecuteState.try_create, h1, h2]
  · intro h1 h2 db hdb hset
    simp [ExecuteState.try_create, bind_database, h1, h2, hdb, hset]
  · intro h1 h2 h3 h4
    simp [ExecuteState.try_create, h1, h2, h3, h4]
  · rintro h1 h2 h3 h4 ⟨u, hu⟩ hp
    simp [ExecuteState.try_create, h1, h2, h3, h4, hu, hp]
  · rintro h1 h2 h3 h4 ⟨u, hu⟩ ⟨plan, hp⟩ hif
    simp [ExecuteState.try_create, h1, h2, h3, h4, hu, hp, hif]
  · rintro h1 h2 h3 h4 ⟨u, hu⟩ ⟨plan, hp⟩ hif hex
    simp [ExecuteState.try_create, h1, h2, h3, h4, hu, hp, hif, hex]

theorem try_create_pre_execution_errors_witness :
    ExecuteState.try_create reqW
        { envOk with parse := fun _ => .error ⟨5, "parse"⟩ } 0 =
      ⟨.error ⟨5, "parse"⟩, false, false⟩ ∧
    ExecuteState.try_create reqW
        { envOk with create_session := .error ⟨6, "sess"⟩ } 0 =
      ⟨.error ⟨6, "sess"⟩, false, false⟩ :=
  ⟨(try_create_pre_execution_errors reqW
      { envOk with parse := fun _ => .error ⟨5, "parse"⟩ } 0
      ⟨5, "parse"⟩).2.2.2.2.1 rfl rfl rfl rfl ⟨⟨"root"⟩, rfl⟩ rfl,
   (try_create_pre_execution_errors reqW
      { envOk with create_session := .error ⟨6, "sess"⟩ } 0
      ⟨6, "sess"⟩).1 rfl⟩

/-- C7: audit-hook failures are swallowed — `try_create` behaves identically
whatever `interpreter.start()` returns, and `stop` produces the same world
(same transition, snapshot, outcome, kill behaviour) whatever
`interpreter.finish()` returns, while still invoking the finish hook on the
Running→Stopped transition. -/
theorem audit_hook_failures_swallowed (req : HttpQueryRequest) (env : Env)
    (now : Nat) (x : Except ErrorCode Unit) (w : World)
    (r : Except ErrorCode Unit) (k : Bool) (t : Nat) :
    ExecuteState.try_create req { env with start_result := x } now =
      ExecuteState.try_create req { env with start_result := .ok () } now ∧
    Executor.stop { w with finish_result := x } r k t =
      { Executor.stop w r k t with finish_result := x } ∧
    (w.executor.state = ExecuteState.Running →
      (Executor.stop w r k t).finish_count = w.finish_count + 1) := by
  refine ⟨rfl, ?_, fun hw => by rw [stop_of_running w hw]⟩
  rcases hw : w.executor.state with _ | f
  · rw [stop_of_running w hw,
      stop_of_running ({ w with finish_result := x }) hw]
  · rw [stop_of_stopped w f hw,
      stop_of_stopped ({ w with finish_result := x }) f hw]

theorem audit_hook_failures_swallowed_witness :
    ExecuteState.try_create reqW
        { envOk with start_result := .error ⟨9, "audit"⟩ } 0 =
      ExecuteState.try_create reqW { envOk with start_result := .ok () } 0 ∧
    (Executor.stop wRun (.ok ()) false 2).finish_count = 1 :=
  ⟨(audit_hook_failures_swallowed reqW envOk 0 (.error ⟨9, "audit"⟩) wRun
      (.ok ()) false 2).1,
   (audit_hook_failures_swallowed reqW envOk 0 (.error ⟨9, "audit"⟩) wRun
      (.ok ()) false 2).2.2 rfl⟩
